import Mathlib
/-!
Verification of the winlamb message-dispatch core.

Embedded components, each translated from the C++ source:
- the handler table (internals/store.h),
- the dispatch router (internals/base_msg_handler.h),
- the window procedure and creation calls (internals/base_window.h),
- the dialog procedure and creation checks (base_dialog),
- native-control subclassing (internals/base_native_control.h).

Modelling conventions: C++ machine integers (UINT, WORD, WPARAM, LPARAM,
HWND, ATOM, DWORD) are Nat; LRESULT and int are Int; a std::function slot
is an entryFunc value (null / a user callback / the forwarding thunk
created by the initializer-list add); a thrown C++ exception is the error
side of Except cppExc.  OS calls are passed in as explicit parameters and
per-handle OS storage (GWLP_USERDATA, DWLP_USER) is an explicit map.
-/

/-- Exception taxonomy used by the library: the values thrown by the
base classes (std::system_error with a platform code, std::logic_error,
std::invalid_argument) and the kinds distinguished by catch_all_excps,
plus std::bad_function_call raised when an empty std::function is
invoked. -/
inductive cppExc where
  | systemError (code : Nat) (msg : String)
  | runtimeError (msg : String)
  | invalidArgument (msg : String)
  | logicError (msg : String)
  | stdException (msg : String)
  | unknownExc
  | badFunctionCall
deriving DecidableEq

/-- Model of wl::param::any: the raw (WPARAM, LPARAM) pair handed to a
user handler. -/
structure Param where
  wparam : Nat
  lparam : Nat
deriving DecidableEq

/-- A user callback: takes the raw parameter pair, returns an LRESULT or
throws. -/
def Callback : Type := Param → Except cppExc Int

/-- One std::function slot of the store vector: either empty (the
nullptr stored with the sentinel), a directly stored user callback, or
the light forwarding wrapper created by the initializer-list overload of
store::add, which re-invokes the entry at the captured index funcIdx. -/
inductive entryFunc (kappa : Type) where
  | null
  | direct (cb : kappa)
  | fwd (idx : Nat)
deriving DecidableEq

/-- Model of _wli::store: the vector of (id, func) pairs.  Index 0 is
the sentinel slot. -/
structure store (alpha kappa : Type) where
  handlers : List (alpha × entryFunc kappa)

/-- The store constructor: one sentinel element.  The C++ default
constructor writes (0, nullptr) and the pair specialization writes
((0, 0), nullptr); the sentinel initial id is passed here as s0. -/
def store.init {alpha kappa : Type} (s0 : alpha) : store alpha kappa :=
  ⟨[(s0, entryFunc.null)]⟩

/-- store::empty: the sentinel element is always present, so the table
is empty when the size is at most 1. -/
def store.empty {alpha kappa : Type} (s : store alpha kappa) : Bool :=
  decide (s.handlers.length ≤ 1)

/-- store::add (single id): emplace_back, an unconditional append. -/
def store.add {alpha kappa : Type} (s : store alpha kappa) (id : alpha)
    (f : entryFunc kappa) : store alpha kappa :=
  ⟨s.handlers ++ [(id, f)]⟩

/-- store::add (initializer_list overload): stores the user callback
once under the first id, records funcIdx = size - 1, then for every
remaining id different from the first one appends the forwarding
wrapper capturing funcIdx. -/
def store.addList {alpha kappa : Type} [DecidableEq alpha]
    (s : store alpha kappa) (ids : List alpha) (cb : kappa) : store alpha kappa :=
  match ids with
  | [] => s
  | id0 :: rest =>
    let s1 := s.add id0 (entryFunc.direct cb)
    let funcIdx := s1.handlers.length - 1
    rest.foldl (fun t i => if i ≠ id0 then t.add i (entryFunc.fwd funcIdx) else t) s1

/-- The id stored at index i of the handler vector, if in range. -/
def keyAt {alpha kappa : Type} (hs : List (alpha × entryFunc kappa)) (i : Nat) :
    Option alpha :=
  (hs[i]?).map Prod.fst

/-- The reverse linear scan of store::find: starting at index i, step
the index down while the id at the index differs from the probed id.
The sentinel at index 0 always matches (it was just overwritten), so
the loop result 0 means only the sentinel matched. -/
def scanBack {alpha kappa : Type} [DecidableEq alpha]
    (hs : List (alpha × entryFunc kappa)) (id : alpha) : Nat → Nat
  | 0 => 0
  | i + 1 => if keyAt hs (i + 1) = some id then i + 1 else scanBack hs id i

/-- store::find: overwrite the sentinel id with the probed id, scan
backward from the last element, and treat stopping at index 0 as not
found.  The sentinel write mutates the table, so the updated store is
returned together with the lookup result. -/
def store.find {alpha kappa : Type} [DecidableEq alpha]
    (s : store alpha kappa) (id : alpha) :
    store alpha kappa × Option (entryFunc kappa) :=
  match s.handlers with
  | [] => (s, none)
  | (_, f0) :: rest =>
    let hs := (id, f0) :: rest
    let j := scanBack hs id rest.length
    (⟨hs⟩, if j = 0 then none else (hs[j]?).map Prod.snd)

/-- Resolution of an entry slot down to the user callback it denotes:
a direct slot is the callback itself; the forwarding wrapper reads the
slot at its captured index and invokes that (fuel bounds the chain; in
every table the library builds, one step reaches a direct slot). -/
def resolveEntry {alpha kappa : Type} (hs : List (alpha × entryFunc kappa)) :
    Nat → entryFunc kappa → Option kappa
  | _, entryFunc.direct cb => some cb
  | _, entryFunc.null => none
  | 0, entryFunc.fwd _ => none
  | fuel + 1, entryFunc.fwd i =>
    match hs[i]? with
    | some q => resolveEntry hs fuel q.2
    | none => none

/-- Invoking the std::function held in an entry slot: resolve it to the
user callback and apply; invoking an empty std::function throws
std::bad_function_call. -/
def callEntry {alpha : Type} (hs : List (alpha × entryFunc Callback))
    (fuel : Nat) (e : entryFunc Callback) (p : Param) : Except cppExc Int :=
  match resolveEntry hs fuel e with
  | some f => f p
  | none => Except.error cppExc.badFunctionCall

/-- find followed by invocation through the returned pointer, reduced to
the underlying user callback that would run (used to state which
callback a lookup reaches). -/
def store.findResolve {alpha kappa : Type} [DecidableEq alpha]
    (s : store alpha kappa) (id : alpha) : Option kappa :=
  match s.find id with
  | (s2, some e) => resolveEntry s2.handlers s2.handlers.length e
  | (_, none) => none

/-- A store obtained from a fresh one by a sequence of single-id add
calls, in order. -/
def buildStore {alpha kappa : Type} (s0 : alpha) (ops : List (alpha × kappa)) :
    store alpha kappa :=
  ops.foldl (fun s p => s.add p.1 (entryFunc.direct p.2)) (store.init s0)

/-- Model of catch_all_excps around a handler invocation inside exec:
retVal starts at 0 and is overwritten only when the invocation returns
normally; any propagating exception is swallowed (after the diagnostic
MessageBox, not modelled), leaving 0. -/
def runCaught (r : Except cppExc Int) : Int :=
  match r with
  | Except.ok v => v
  | Except.error _ => 0

def WM_COMMAND : Nat := 273

def WM_NOTIFY : Nat := 78

def WM_NCCREATE : Nat := 129

def WM_NCDESTROY : Nat := 130

def WM_INITDIALOG : Nat := 272

/-- The LOWORD macro: low 16 bits of a raw parameter. -/
def LOWORD (w : Nat) : Nat := w % 65536

/-- static_cast<int> applied to the 32-bit unsigned notification code
field of NMHDR: values at or above 2^31 wrap to negatives. -/
def intOfUInt32 (n : Nat) : Int :=
  if n % 4294967296 < 2147483648 then ((n % 4294967296 : Nat) : Int)
  else ((n % 4294967296 : Nat) : Int) - 4294967296

/-- The fields of the NMHDR notification header that exec reads through
the lp pointer. -/
structure NMHDR where
  hwndFrom : Nat
  idFrom : Nat
  code : Nat

/-- Model of _wli::base_msg_handler: three stores, keyed by message
code, by WM_COMMAND sub-code, and by the (idFrom, code) notification
pair. -/
structure base_msg_handler where
  msgs : store Nat Callback
  cmds : store Nat Callback
  nfys : store (Nat × Int) Callback

/-- base_msg_handler::on_message (single id): add to the generic
message table. -/
def base_msg_handler.on_message (h : base_msg_handler) (msg : Nat)
    (cb : Callback) : base_msg_handler :=
  { h with msgs := h.msgs.add msg (entryFunc.direct cb) }

/-- base_msg_handler::on_command (single id): add to the command
table. -/
def base_msg_handler.on_command (h : base_msg_handler) (cmd : Nat)
    (cb : Callback) : base_msg_handler :=
  { h with cmds := h.cmds.add cmd (entryFunc.direct cb) }

/-- base_msg_handler::on_notify (single pair): add to the notification
table. -/
def base_msg_handler.on_notify (h : base_msg_handler) (idFrom : Nat)
    (code : Int) (cb : Callback) : base_msg_handler :=
  { h with nfys := h.nfys.add (idFrom, code) (entryFunc.direct cb) }

/-- base_msg_handler::exec: WM_COMMAND probes the command table keyed
by LOWORD(wp); WM_NOTIFY probes the notification table keyed by the
(idFrom, int(code)) pair read from the NMHDR at lp; every other message
probes the generic table keyed by the message code.  A found handler is
invoked under catch_all_excps with retVal starting at 0; no handler
found returns empty.  The probed store comes back with its sentinel
mutated by find. -/
def base_msg_handler.exec (h : base_msg_handler) (mem : Nat → NMHDR)
    (msg wp lp : Nat) : base_msg_handler × Option Int :=
  if msg = WM_COMMAND then
    let fr := h.cmds.find (LOWORD wp)
    match fr.2 with
    | some e => ({ h with cmds := fr.1 },
        some (runCaught (callEntry fr.1.handlers fr.1.handlers.length e ⟨wp, lp⟩)))
    | none => ({ h with cmds := fr.1 }, none)
  else if msg = WM_NOTIFY then
    let nm := mem lp
    let fr := h.nfys.find (nm.idFrom, intOfUInt32 nm.code)
    match fr.2 with
    | some e => ({ h with nfys := fr.1 },
        some (runCaught (callEntry fr.1.handlers fr.1.handlers.length e ⟨wp, lp⟩)))
    | none => ({ h with nfys := fr.1 }, none)
  else
    let fr := h.msgs.find msg
    match fr.2 with
    | some e => ({ h with msgs := fr.1 },
        some (runCaught (callEntry fr.1.handlers fr.1.handlers.length e ⟨wp, lp⟩)))
    | none => ({ h with msgs := fr.1 }, none)

/-- The entry slot exec would find: the find result of the single table
selected by the message code (the userFunc pointer of the source). -/
def base_msg_handler.foundHandler (h : base_msg_handler) (mem : Nat → NMHDR)
    (msg wp lp : Nat) : Option (entryFunc Callback) :=
  if msg = WM_COMMAND then (h.cmds.find (LOWORD wp)).2
  else if msg = WM_NOTIFY then
    (h.nfys.find ((mem lp).idFrom, intOfUInt32 (mem lp).code)).2
  else (h.msgs.find msg).2

/-- The outcome of invoking the found handler through its pointer into
the selected (sentinel-updated) table, before catch_all_excps is
applied. -/
def base_msg_handler.foundCall (h : base_msg_handler) (mem : Nat → NMHDR)
    (msg wp lp : Nat) (p : Param) : Option (Except cppExc Int) :=
  if msg = WM_COMMAND then
    (h.cmds.find (LOWORD wp)).2.map
      (fun e => callEntry (h.cmds.find (LOWORD wp)).1.handlers
        (h.cmds.find (LOWORD wp)).1.handlers.length e p)
  else if msg = WM_NOTIFY then
    (h.nfys.find ((mem lp).idFrom, intOfUInt32 (mem lp).code)).2.map
      (fun e => callEntry (h.nfys.find ((mem lp).idFrom, intOfUInt32 (mem lp).code)).1.handlers
        (h.nfys.find ((mem lp).idFrom, intOfUInt32 (mem lp).code)).1.handlers.length e p)
  else
    (h.msgs.find msg).2.map
      (fun e => callEntry (h.msgs.find msg).1.handlers
        (h.msgs.find msg).1.handlers.length e p)

/-- True of a slot holding a directly stored callback. -/
def isDirectSlot {kappa : Type} : entryFunc kappa → Bool
  | entryFunc.direct _ => true
  | _ => false

/-- The index captured by a forwarding wrapper, if the slot is one. -/
def fwdTarget {kappa : Type} : entryFunc kappa → Option Nat
  | entryFunc.fwd i => some i
  | _ => none

/-- Well-formedness of a handler vector as the library builds it: every
forwarding wrapper points at an in-range slot holding a direct
callback (store::add with an initializer list always captures the index
of the just-appended user callback). -/
def entryWFb {alpha kappa : Type} (hs : List (alpha × entryFunc kappa)) : Bool :=
  hs.all (fun x =>
    match fwdTarget x.2 with
    | none => true
    | some i =>
      match hs[i]? with
      | some q => isDirectSlot q.2
      | none => false)

/-- A concrete handler whose message 5 entry always throws: used to
exercise the dispatch theorems on explicit inputs. -/
def errorCallback : Callback := fun _ => Except.error cppExc.unknownExc

/-- A concrete base_msg_handler with one generic handler under message
code 5. -/
def wHandler : base_msg_handler :=
  { msgs := (store.init 0).add 5 (entryFunc.direct errorCallback)
    cmds := store.init 0
    nfys := store.init (0, 0) }

/-- A trivial NMHDR memory for exercising exec on concrete inputs. -/
def memZero : Nat → NMHDR := fun _ => ⟨0, 0, 0⟩

/-- Result of a window or subclass procedure invocation: a value
produced by a user handler, or the fallthrough to the default OS
procedure (DefWindowProc / DefSubclassProc). -/
inductive procResult where
  | handled (v : Int)
  | defaultProc
deriving DecidableEq

/-- Per-instance state of a base_window or base_dialog: the stored HWND
member (0 for nullptr) and the owned message handler. -/
structure base_window_st where
  hWnd : Nat
  msgHandler : base_msg_handler

/-- OS-side state the trampoline interacts with: the per-handle
user-data slot (GWLP_USERDATA for windows, DWLP_USER for dialogs; value
0 means cleared) and the instance each stored nonzero pointer
designates. -/
structure winWorld where
  userData : Nat → Nat
  instances : Nat → base_window_st

/-- SetWindowLongPtr on the user-data slot of one handle. -/
def setUserData (w : winWorld) (hWnd p : Nat) : winWorld :=
  { w with userData := fun h2 => if h2 = hWnd then p else w.userData h2 }

/-- Overwriting the instance a pointer designates (a C++ member
assignment through the pointer). -/
def setInstance (w : winWorld) (p : Nat) (st : base_window_st) : winWorld :=
  { w with instances := fun q => if q = p then st else w.instances q }

/-- base_window::_window_proc: on WM_NCCREATE the pending this-pointer
is read from the CREATESTRUCT (csMem lp models pCs->lpCreateParams),
stored into the per-handle slot, and the handle recorded on the
instance; otherwise the owner is read back from the slot.  A null owner
short-circuits to DefWindowProc.  The message is dispatched through
exec, and on WM_NCDESTROY, strictly after that dispatch, the slot is
cleared and the instance handle zeroed.  (The source would dereference a
null lpCreateParams on WM_NCCREATE; the library never creates a window
with null creation parameters, and the model returns the default path.) -/
def window_proc (w : winWorld) (csMem : Nat → Nat) (mem : Nat → NMHDR)
    (hWnd msg wp lp : Nat) : winWorld × procResult :=
  let pSelf : Nat := if msg = WM_NCCREATE then csMem lp else w.userData hWnd
  let w1 : winWorld :=
    if msg = WM_NCCREATE then
      setInstance (setUserData w hWnd pSelf) pSelf
        { w.instances pSelf with hWnd := hWnd }
    else w
  if pSelf = 0 then (w1, procResult.defaultProc)
  else
    let inst := w1.instances pSelf
    let er := inst.msgHandler.exec mem msg wp lp
    let w2 := setInstance w1 pSelf { inst with msgHandler := er.1 }
    let w3 :=
      if msg = WM_NCDESTROY then
        setUserData (setInstance w2 pSelf { w2.instances pSelf with hWnd := 0 })
          hWnd 0
      else w2
    (w3, match er.2 with
         | some v => procResult.handled v
         | none => procResult.defaultProc)

/-- base_dialog::_dialog_proc: same trampoline shape with WM_INITDIALOG
in place of WM_NCCREATE (the pointer arrives directly in lp), DWLP_USER
in place of GWLP_USERDATA, and INT_PTR results: FALSE (0) when no owner
is stored, and ret.value_or(FALSE) after dispatch.  (The WM_SETFONT
broadcast to children is an OS side effect not modelled.) -/
def dialog_proc (w : winWorld) (mem : Nat → NMHDR) (hWnd msg wp lp : Nat) :
    winWorld × Int :=
  let pSelf : Nat := if msg = WM_INITDIALOG then lp else w.userData hWnd
  let w1 : winWorld :=
    if msg = WM_INITDIALOG then
      setInstance (setUserData w hWnd pSelf) pSelf
        { w.instances pSelf with hWnd := hWnd }
    else w
  if pSelf = 0 then (w1, 0)
  else
    let inst := w1.instances pSelf
    let er := inst.msgHandler.exec mem msg wp lp
    let w2 := setInstance w1 pSelf { inst with msgHandler := er.1 }
    let w3 :=
      if msg = WM_NCDESTROY then
        setUserData (setInstance w2 pSelf { w2.instances pSelf with hWnd := 0 })
          hWnd 0
      else w2
    (w3, (er.2).getD 0)

/-- Feeding a sequence of (msg, wp, lp) triples for one handle through
the window procedure. -/
def run_window_msgs (csMem : Nat → Nat) (mem : Nat → NMHDR) (hWnd : Nat) :
    winWorld → List (Nat × Nat × Nat) → winWorld
  | w, [] => w
  | w, m :: ms =>
    run_window_msgs csMem mem hWnd
      (window_proc w csMem mem hWnd m.1 m.2.1 m.2.2).1 ms

/-- A concrete world: handle 7 owned by the instance at pointer 1. -/
def wWorldC : winWorld :=
  { userData := fun h2 => if h2 = 7 then 1 else 0
    instances := fun _ => { hWnd := 7, msgHandler := wHandler } }

/-- base_window::create_window: rejects a second creation with a logic
error, then calls CreateWindowEx (outcome passed in: the new HWND on
success, the GetLastError code on failure, raised as a system error).
The HWND member is not set here but during WM_NCCREATE processing, so
the instance is unchanged by this call. -/
def create_window (s : base_window_st) (osCreate : Except Nat Nat) :
    Except cppExc Nat :=
  if s.hWnd ≠ 0 then
    Except.error (cppExc.logicError "Cannot create a window twice.")
  else
    match osCreate with
    | Except.ok h2 => Except.ok h2
    | Except.error lerr =>
        Except.error (cppExc.systemError lerr "CreateWindowEx failed.")

/-- base_window::on_message: registration is rejected with a logic
error once the window is live. -/
def base_window_on_message (s : base_window_st) (msg : Nat) (cb : Callback) :
    Except cppExc base_window_st :=
  if s.hWnd ≠ 0 then
    Except.error (cppExc.logicError
      "Cannot add a message handler after the window was created.")
  else Except.ok { s with msgHandler := s.msgHandler.on_message msg cb }

/-- base_window::on_command: same guard for the command table. -/
def base_window_on_command (s : base_window_st) (cmd : Nat) (cb : Callback) :
    Except cppExc base_window_st :=
  if s.hWnd ≠ 0 then
    Except.error (cppExc.logicError
      "Cannot add a command handler after the window was created.")
  else Except.ok { s with msgHandler := s.msgHandler.on_command cmd cb }

/-- base_window::on_notify: same guard for the notification table. -/
def base_window_on_notify (s : base_window_st) (idFrom : Nat) (code : Int)
    (cb : Callback) : Except cppExc base_window_st :=
  if s.hWnd ≠ 0 then
    Except.error (cppExc.logicError
      "Cannot add a notify handler after the window was created.")
  else Except.ok { s with msgHandler := s.msgHandler.on_notify idFrom code cb }

/-- base_dialog::_creation_checks: a live dialog rejects re-creation,
and a zero dialog resource id is rejected. -/
def dlg_creation_checks (s : base_window_st) (dialogId : Nat) :
    Except cppExc Unit :=
  if s.hWnd ≠ 0 then
    Except.error (cppExc.logicError "Cannot create a dialog twice.")
  else if dialogId = 0 then
    Except.error (cppExc.logicError "No dialog resource ID given on dialog setup.")
  else Except.ok ()

/-- base_dialog::on_message: registration guard of the dialog class. -/
def dlg_on_message (s : base_window_st) (msg : Nat) (cb : Callback) :
    Except cppExc base_window_st :=
  if s.hWnd ≠ 0 then
    Except.error (cppExc.logicError
      "Cannot add a message handler after the dialog was created.")
  else Except.ok { s with msgHandler := s.msgHandler.on_message msg cb }

/-- base_dialog::on_command. -/
def dlg_on_command (s : base_window_st) (cmd : Nat) (cb : Callback) :
    Except cppExc base_window_st :=
  if s.hWnd ≠ 0 then
    Except.error (cppExc.logicError
      "Cannot add a command handler after the dialog was created.")
  else Except.ok { s with msgHandler := s.msgHandler.on_command cmd cb }

/-- base_dialog::on_notify. -/
def dlg_on_notify (s : base_window_st) (idFrom : Nat) (code : Int)
    (cb : Callback) : Except cppExc base_window_st :=
  if s.hWnd ≠ 0 then
    Except.error (cppExc.logicError
      "Cannot add a notify handler after the dialog was created.")
  else Except.ok { s with msgHandler := s.msgHandler.on_notify idFrom code cb }

def ERROR_SUCCESS : Nat := 0

def ERROR_CLASS_ALREADY_EXISTS : Nat := 1410

/-- base_window::register_class: SetLastError(ERROR_SUCCESS), then
RegisterClassEx (its returned atom and the subsequent GetLastError value
are passed in); when the OS reports the class already exists, the
existing class info is fetched and its atom reused with no error; any
other nonzero error raises a system error carrying the code. -/
def register_class (atomFromOS lerr existingClassAtom : Nat) :
    Except cppExc Nat :=
  if lerr = ERROR_CLASS_ALREADY_EXISTS then Except.ok existingClassAtom
  else if lerr ≠ ERROR_SUCCESS then
    Except.error (cppExc.systemError lerr "RegisterClassEx failed.")
  else Except.ok atomFromOS

/-- A concrete live instance (handle 5) for the rejection witness. -/
def liveWindowC : base_window_st := { hWnd := 5, msgHandler := wHandler }

/-- Per-instance state of base_native_control: the control handle, the
subclass id obtained at installation, and the subclass handler table. -/
structure base_native_control_st where
  hWnd : Nat
  subclassId : Nat
  msgs : store Nat Callback

/-- base_native_control::_install_subclass_if_needed: SetWindowSubclass
is called only when at least one subclass handler was registered; nextId
models the incremented static counter; the Bool records whether the
subclass procedure was installed. -/
def install_subclass_if_needed (s : base_native_control_st) (nextId : Nat) :
    base_native_control_st × Bool :=
  if !s.msgs.empty then ({ s with subclassId := nextId }, true)
  else (s, false)

/-- base_native_control::assign: rejects an already created control and
a missing parent, stores the handle obtained from GetDlgItem, then
installs the subclass if needed. -/
def bnc_assign (s : base_native_control_st) (parentGiven : Bool)
    (osDlgItem : Nat) (nextId : Nat) :
    Except cppExc (base_native_control_st × Bool) :=
  if s.hWnd ≠ 0 then
    Except.error (cppExc.logicError "Cannot assign an alredy created control.")
  else if !parentGiven then
    Except.error (cppExc.invalidArgument
      "No parent passed to base_native_control::show().")
  else
    Except.ok (install_subclass_if_needed { s with hWnd := osDlgItem } nextId)

/-- base_native_control::create_window: same guards, then
CreateWindowEx (outcome passed in), stores the handle, then installs
the subclass if needed. -/
def bnc_create_window (s : base_native_control_st) (parentGiven : Bool)
    (osCreate : Except Nat Nat) (nextId : Nat) :
    Except cppExc (base_native_control_st × Bool) :=
  if s.hWnd ≠ 0 then
    Except.error (cppExc.logicError "Cannot create a control twice.")
  else if !parentGiven then
    Except.error (cppExc.invalidArgument
      "No parent passed to base_native_control::show().")
  else
    match osCreate with
    | Except.error lerr =>
        Except.error (cppExc.systemError lerr
          "CreateWindowEx failed for native control.")
    | Except.ok h2 =>
        Except.ok (install_subclass_if_needed { s with hWnd := h2 } nextId)

/-- base_native_control::_subclass_proc: with a non-null instance whose
handle is set, a subclass handler is looked up and, if found, run under
catch_all_excps and its retVal returned; otherwise the message falls
through to DefSubclassProc.  Independently of all of that, on
WM_NCDESTROY the procedure always removes its own subclass — the middle
Bool of the result records whether RemoveWindowSubclass was called. -/
def subclass_proc (ctrl : Option base_native_control_st) (msg wp lp : Nat) :
    Option base_native_control_st × Bool × procResult :=
  let step : Option base_native_control_st × Option Int :=
    match ctrl with
    | some c =>
      if c.hWnd ≠ 0 then
        let fr := c.msgs.find msg
        match fr.2 with
        | some e => (some { c with msgs := fr.1 },
            some (runCaught
              (callEntry fr.1.handlers fr.1.handlers.length e ⟨wp, lp⟩)))
        | none => (some { c with msgs := fr.1 }, none)
      else (some c, none)
    | none => (none, none)
  (step.1, decide (msg = WM_NCDESTROY),
   match step.2 with
   | some v => procResult.handled v
   | none => procResult.defaultProc)

/-- A concrete fresh control with one subclass handler registered. -/
def freshControlC : base_native_control_st :=
  { hWnd := 0, subclassId := 0,
    msgs := (store.init 0).add 3 (entryFunc.direct errorCallback) }

theorem scanBack_le {alpha kappa : Type} [DecidableEq alpha]
    (hs : List (alpha × entryFunc kappa)) (id : alpha) (n : Nat) :
    scanBack hs id n ≤ n := by
  induction n with
  | zero => simp [scanBack]
  | succ n ih =>
    simp only [scanBack]
    split
    · exact Nat.le_refl _
    · exact Nat.le_trans ih (Nat.le_succ n)

theorem scanBack_append {alpha kappa : Type} [DecidableEq alpha]
    (hs : List (alpha × entryFunc kappa)) (x : alpha × entryFunc kappa)
    (id : alpha) (n : Nat) (h : n < hs.length) :
    scanBack (hs ++ [x]) id n = scanBack hs id n := by
  induction n with
  | zero => simp [scanBack]
  | succ n ih =>
    have hk : keyAt (hs ++ [x]) (n + 1) = keyAt hs (n + 1) := by
      simp only [keyAt]
      rw [List.getElem?_append_left h]
    simp only [scanBack, hk]
    split
    · rfl
    · exact ih (Nat.lt_of_succ_lt h)

theorem scanBack_find_eq {alpha kappa : Type} [DecidableEq alpha]
    (x : alpha × entryFunc kappa) (t : List (alpha × entryFunc kappa)) (k : alpha) :
    (if scanBack (x :: t) k t.length = 0 then none
     else ((x :: t)[scanBack (x :: t) k t.length]?).map Prod.snd)
    = (t.reverse.find? (fun p => decide (p.1 = k))).map Prod.snd := by
  induction t using List.reverseRecOn with
  | nil => simp [scanBack]
  | append_singleton t' a ih =>
    have hxt : x :: (t' ++ [a]) = (x :: t') ++ [a] := by simp
    have hlen : (t' ++ [a]).length = t'.length + 1 := by simp
    have htop : keyAt ((x :: t') ++ [a]) (t'.length + 1) = some a.1 := by
      have : ((x :: t') ++ [a])[(x :: t').length]? = some a :=
        List.getElem?_concat_length _ _
      simp only [keyAt, List.length_cons] at this ⊢
      rw [this]
      rfl
    by_cases ha : a.1 = k
    · rw [hxt, hlen]
      simp only [scanBack, htop, ha, if_pos rfl]
      have hget : ((x :: t') ++ [a])[t'.length + 1]? = some a := by
        have := List.getElem?_concat_length (x :: t') a
        simp only [List.length_cons] at this
        exact this
      simp [hget, ha]
    · rw [hxt, hlen]
      have hne : ¬(keyAt ((x :: t') ++ [a]) (t'.length + 1) = some k) := by
        rw [htop]
        intro hcon
        exact ha (Option.some.inj hcon)
      simp only [scanBack, if_neg hne]
      have hlt : t'.length < (x :: t').length := by simp
      rw [scanBack_append _ _ _ _ hlt]
      have hle := scanBack_le (x :: t') k t'.length
      have hget2 : ∀ j, j ≤ t'.length →
          ((x :: t') ++ [a])[j]? = (x :: t')[j]? := by
        intro j hj
        exact List.getElem?_append_left (Nat.lt_of_le_of_lt hj hlt)
      have hrw : (if scanBack (x :: t') k t'.length = 0 then none
          else (((x :: t') ++ [a])[scanBack (x :: t') k t'.length]?).map Prod.snd)
          = (if scanBack (x :: t') k t'.length = 0 then none
          else ((x :: t')[scanBack (x :: t') k t'.length]?).map Prod.snd) := by
        rw [hget2 _ hle]
      rw [hrw, ih]
      have : (t' ++ [a]).reverse = a :: t'.reverse := by simp
      rw [this, List.find?_cons_of_neg]
      simpa using ha

theorem store.find_eq {alpha kappa : Type} [DecidableEq alpha]
    (h0 : alpha × entryFunc kappa) (t : List (alpha × entryFunc kappa)) (k : alpha) :
    (store.find ⟨h0 :: t⟩ k)
      = (⟨(k, h0.2) :: t⟩,
         (t.reverse.find? (fun p => decide (p.1 = k))).map Prod.snd) := by
  obtain ⟨k0, f0⟩ := h0
  simp only [store.find]
  exact congrArg _ (scanBack_find_eq (k, f0) t k)

theorem foldl_add_handlers {alpha kappa : Type} (s : store alpha kappa)
    (ops : List (alpha × kappa)) :
    (ops.foldl (fun s p => s.add p.1 (entryFunc.direct p.2)) s).handlers
      = s.handlers ++ ops.map (fun p => (p.1, entryFunc.direct p.2)) := by
  induction ops generalizing s with
  | nil => simp
  | cons p ops ih =>
    rw [List.foldl_cons, ih]
    simp [store.add]

theorem buildStore_handlers {alpha kappa : Type} (s0 : alpha)
    (ops : List (alpha × kappa)) :
    (buildStore s0 ops).handlers
      = (s0, entryFunc.null) :: ops.map (fun p => (p.1, entryFunc.direct p.2)) := by
  simp [buildStore, foldl_add_handlers, store.init]

/-- Claim C1: for every sequence of single-id store::add calls followed
by store::find on a key, find returns the callback most recently added
under exactly that key (last write wins under duplicate keys), and find
on a key that no add call registered returns empty. -/
theorem store_find_last_write_wins {alpha kappa : Type} [DecidableEq alpha]
    (s0 : alpha) (ops : List (alpha × kappa)) (k : alpha) :
    ((buildStore s0 ops).find k).2
      = (ops.reverse.find? (fun p => decide (p.1 = k))).map
          (fun p => entryFunc.direct p.2)
  ∧ (k ∉ ops.map Prod.fst → ((buildStore s0 ops).find k).2 = none) := by
  have hmain : ((buildStore s0 ops).find k).2
      = (ops.reverse.find? (fun p => decide (p.1 = k))).map
          (fun p => entryFunc.direct p.2) := by
    have hs := buildStore_handlers s0 ops
    have heq : buildStore s0 ops
        = (⟨(s0, entryFunc.null) :: ops.map (fun p => (p.1, entryFunc.direct p.2))⟩ :
            store alpha kappa) := by
      cases hbs : buildStore s0 ops with
      | mk hsl => rw [hbs] at hs; simp only at hs; rw [hs]
    rw [heq, store.find_eq]
    simp only
    rw [← List.map_reverse, List.find?_map]
    rw [Option.map_map]
    rfl
  refine ⟨hmain, fun hnot => ?_⟩
  rw [hmain]
  have : ops.reverse.find? (fun p => decide (p.1 = k)) = none := by
    rw [List.find?_eq_none]
    intro x hx
    simp only [decide_eq_true_eq]
    intro hxk
    exact hnot (List.mem_map.mpr ⟨x, List.mem_reverse.mp hx, hxk⟩)
  rw [this]
  rfl

/-- Witness for C1: after add(3, 10); add(3, 20); add(5, 30), find(3)
yields the later callback 20, and find(9), never registered, is empty. -/
theorem store_find_last_write_wins_witness :
    ((buildStore 0 [(3, 10), (3, 20), (5, 30)] : store Nat Nat).find 3).2
        = some (entryFunc.direct 20)
  ∧ (9 ∉ ([(3, 10), (3, 20), (5, 30)] : List (Nat × Nat)).map Prod.fst)
  ∧ ((buildStore 0 [(3, 10), (3, 20), (5, 30)] : store Nat Nat).find 9).2 = none := by
  refine ⟨?_, by decide, ?_⟩
  · rw [(store_find_last_write_wins 0 [(3, 10), (3, 20), (5, 30)] 3).1]
    rfl
  · exact (store_find_last_write_wins 0 [(3, 10), (3, 20), (5, 30)] 9).2 (by decide)

/-- Claim C6: find returns empty (never a false match) on a table whose
only element is the sentinel, and, because find rewrites the sentinel id
before every scan, the result of a find is unaffected by whatever id an
earlier find left in the sentinel slot. -/
theorem find_empty_and_sentinel_independent {alpha kappa : Type} [DecidableEq alpha] :
    (∀ (s : store alpha kappa) (k : alpha), s.empty = true → (s.find k).2 = none)
  ∧ (∀ (s : store alpha kappa) (k1 k2 : alpha),
       (((s.find k1).1).find k2).2 = (s.find k2).2) := by
  constructor
  · intro s k hemp
    obtain ⟨hs⟩ := s
    simp only [store.empty, decide_eq_true_eq] at hemp
    match hs, hemp with
    | [], _ => rfl
    | [(k0, f0)], _ =>
      simp [store.find, scanBack]
    | (a :: b :: t), hemp =>
      exfalso
      simp [List.length_cons] at hemp
  · intro s k1 k2
    obtain ⟨hs⟩ := s
    match hs with
    | [] => rfl
    | (h0 :: t) =>
      rw [store.find_eq h0 t k1]
      simp only
      rw [store.find_eq (k1, h0.2) t k2, store.find_eq h0 t k2]

/-- Witness for C6: a freshly constructed store (sentinel only) reports
empty and find misses even when probing the sentinel initial id itself;
an intervening find(5) does not change the outcome of find(5). -/
theorem find_empty_and_sentinel_independent_witness :
    ((store.init 0 : store Nat Nat).empty = true)
  ∧ ((store.init 0 : store Nat Nat).find 0).2 = none
  ∧ (((((store.init 0 : store Nat Nat).add 5 (entryFunc.direct 7)).find 5).1).find 5).2
      = (((store.init 0 : store Nat Nat).add 5 (entryFunc.direct 7)).find 5).2 := by
  refine ⟨by decide, ?_, ?_⟩
  · exact (find_empty_and_sentinel_independent.1) (store.init 0) 0 (by decide)
  · exact (find_empty_and_sentinel_independent.2)
      ((store.init 0 : store Nat Nat).add 5 (entryFunc.direct 7)) 5 5

theorem foldl_fwd_handlers {alpha kappa : Type} [DecidableEq alpha]
    (id0 : alpha) (F : Nat) (t0 : store alpha kappa) (rest : List alpha) :
    (rest.foldl (fun t i => if i ≠ id0 then t.add i (entryFunc.fwd F) else t) t0).handlers
      = t0.handlers ++ rest.filterMap
          (fun i => if i ≠ id0 then some (i, entryFunc.fwd F) else none) := by
  induction rest generalizing t0 with
  | nil => simp
  | cons i rest ih =>
    rw [List.foldl_cons, ih]
    by_cases h : i = id0
    · subst h
      simp
    · simp [h, store.add]

theorem addList_handlers {alpha kappa : Type} [DecidableEq alpha]
    (s : store alpha kappa) (id0 : alpha) (rest : List alpha) (cb : kappa) :
    (s.addList (id0 :: rest) cb).handlers
      = s.handlers ++ [(id0, entryFunc.direct cb)]
        ++ rest.filterMap (fun i => if i ≠ id0 then
             some (i, entryFunc.fwd s.handlers.length) else none) := by
  show (rest.foldl _ (s.add id0 (entryFunc.direct cb))).handlers = _
  rw [foldl_fwd_handlers]
  simp [store.add]

theorem mem_fwd_block {alpha kappa : Type} [DecidableEq alpha]
    (id0 : alpha) (F : Nat) (rest : List alpha) (x : alpha × entryFunc kappa)
    (hx : x ∈ rest.filterMap
       (fun i => if i ≠ id0 then some (i, entryFunc.fwd F) else none)) :
    x.1 ≠ id0 ∧ x.2 = entryFunc.fwd F ∧ x.1 ∈ rest := by
  obtain ⟨i, hi, hfi⟩ := List.mem_filterMap.mp hx
  by_cases h : i = id0
  · subst h; simp at hfi
  · simp only [h, ne_eq, not_false_eq_true, if_pos] at hfi
    obtain rfl := Option.some.inj hfi
    exact ⟨h, rfl, hi⟩

theorem length_filterMap_ite {alpha beta : Type} (q : alpha → Prop)
    [DecidablePred q] (g : alpha → beta) (l : List alpha) :
    (l.filterMap (fun i => if q i then some (g i) else none)).length
      = l.countP (fun i => decide (q i)) := by
  induction l with
  | nil => rfl
  | cons a l ih =>
    by_cases h : q a <;>
      simp [List.filterMap_cons, List.countP_cons, h, ih]

theorem store.eq_of_handlers {alpha kappa : Type} {s1 s2 : store alpha kappa}
    (h : s1.handlers = s2.handlers) : s1 = s2 := by
  cases s1
  cases s2
  simpa using h

theorem resolveEntry_direct {alpha kappa : Type}
    (hs : List (alpha × entryFunc kappa)) (fuel : Nat) (c : kappa) :
    resolveEntry hs fuel (entryFunc.direct c) = some c := by
  cases fuel <;> rfl

theorem findResolve_eq_of_find {alpha kappa : Type} [DecidableEq alpha]
    (s : store alpha kappa) (k : alpha) (s2 : store alpha kappa)
    (e : entryFunc kappa) (h : s.find k = (s2, some e)) :
    s.findResolve k = resolveEntry s2.handlers s2.handlers.length e := by
  unfold store.findResolve
  rw [h]

/-- Claim C5 counterexample: in a single multi-key call
add({1, 2, 2}, cb), the repeated subsequent key 2 is only checked
against the first key 1, so the table receives two entries keyed 2
(both forwarding wrappers), not one. -/
theorem addList_duplicate_key_counterexample :
    (((store.init 0 : store Nat Nat).addList [1, 2, 2] 7).handlers.countP
        (fun p => decide (p.1 = 2))) = 2 := by
  decide

/-- Claim C5 (amended): add(keys, callback) stores the callback once
under the first key; every later key is compared only against the first
key, so a later key equal to the first adds nothing, while every other
later key (even one repeated among the later keys) adds one forwarding
wrapper per occurrence; find on any of the registered keys resolves to
that same single stored callback. -/
theorem addList_shared_callback {alpha kappa : Type} [DecidableEq alpha]
    (s : store alpha kappa) (id0 : alpha) (rest : List alpha) (cb : kappa)
    (hne : s.handlers ≠ []) (k : alpha) (hk : k ∈ id0 :: rest) :
    (s.addList (id0 :: rest) cb).findResolve k = some cb
  ∧ (s.addList (id0 :: rest) cb).handlers.length
      = s.handlers.length + 1 + rest.countP (fun i => decide (i ≠ id0)) := by
  obtain ⟨h0, t, hht⟩ := List.exists_cons_of_ne_nil hne
  have hadd := addList_handlers s id0 rest cb
  constructor
  case right =>
    rw [hadd, List.length_append, List.length_append,
      length_filterMap_ite (fun i => i ≠ id0)
        (fun i => (i, entryFunc.fwd s.handlers.length)) rest]
    simp only [List.length_cons, List.length_nil]
    try omega
  case left =>
    set R := rest.filterMap (fun i => if i ≠ id0 then
        some (i, entryFunc.fwd s.handlers.length) else none) with hR
    set D := (id0, entryFunc.direct cb) with hD
    set T := t ++ [D] ++ R with hT
    have hshape : (s.addList (id0 :: rest) cb)
        = (⟨h0 :: T⟩ : store alpha kappa) := by
      apply store.eq_of_handlers
      rw [hadd, hht, hT]
      simp
    have hfind := store.find_eq h0 T k
    have hRfwd : ∀ x ∈ R, x.1 ≠ id0 ∧ x.2 = entryFunc.fwd s.handlers.length
        ∧ x.1 ∈ rest := fun x hx => mem_fwd_block id0 _ rest x hx
    have hTrev : T.reverse = R.reverse ++ (D :: t.reverse) := by
      rw [hT]
      simp
    have hgetD : ((k, h0.2) :: T)[s.handlers.length]? = some D := by
      rw [hht, hT]
      simp only [List.length_cons, List.getElem?_cons_succ]
      rw [List.getElem?_append_left (by simp : t.length < (t ++ [D]).length)]
      exact List.getElem?_concat_length t D
    by_cases hkid : k = id0
    · subst hkid
      have hRnone : R.reverse.find? (fun p => decide (p.1 = k)) = none := by
        rw [List.find?_eq_none]
        intro x hx
        simp only [decide_eq_true_eq]
        exact (hRfwd x (List.mem_reverse.mp hx)).1
      have hfound : T.reverse.find? (fun p => decide (p.1 = k)) = some D := by
        rw [hTrev, List.find?_append, hRnone]
        rw [List.find?_cons_of_pos _ (by simp [hD])]
        rfl
      have hfk : (s.addList (k :: rest) cb).find k = (⟨(k, h0.2) :: T⟩, some D.2) := by
        rw [hshape, hfind, hfound]
        rfl
      rw [findResolve_eq_of_find _ _ _ _ hfk, hD]
      exact resolveEntry_direct _ _ cb
    · have hkrest : k ∈ rest := by
        cases List.mem_cons.mp hk with
        | inl h => exact absurd h hkid
        | inr h => exact h
      have hmemR : (k, entryFunc.fwd s.handlers.length) ∈ R := by
        rw [hR]
        exact List.mem_filterMap.mpr ⟨k, hkrest, by simp [hkid]⟩
      have hsomeR : (R.reverse.find? (fun p => decide (p.1 = k))).isSome := by
        rw [List.find?_isSome]
        exact ⟨(k, entryFunc.fwd s.handlers.length),
          List.mem_reverse.mpr hmemR, by simp⟩
      obtain ⟨q, hq⟩ := Option.isSome_iff_exists.mp hsomeR
      have hqR : q ∈ R := List.mem_reverse.mp (List.mem_of_find?_eq_some hq)
      have hqfwd : q.2 = entryFunc.fwd s.handlers.length := (hRfwd q hqR).2.1
      have hfound : T.reverse.find? (fun p => decide (p.1 = k)) = some q := by
        rw [hTrev, List.find?_append, hq]
        rfl
      have hfk : (s.addList (id0 :: rest) cb).find k
          = (⟨(k, h0.2) :: T⟩, some q.2) := by
        rw [hshape, hfind, hfound]
        rfl
      rw [findResolve_eq_of_find _ _ _ _ hfk, hqfwd]
      have hlen : (((k, h0.2) :: T) : List (alpha × entryFunc kappa)).length
          = T.length + 1 := by simp
      rw [hlen]
      show (match ((k, h0.2) :: T)[s.handlers.length]? with
        | some q2 => resolveEntry ((k, h0.2) :: T) T.length q2.2
        | none => none) = some cb
      rw [hgetD]
      exact resolveEntry_direct _ _ cb

/-- Witness for C5 (amended): add({1, 2, 3}, cb) on a fresh store lets
find on each of 1, 2, 3 resolve to cb, and the table grew by exactly
three entries. -/
theorem addList_shared_callback_witness :
    ((store.init 0 : store Nat Nat).handlers ≠ [])
  ∧ (2 ∈ [1, 2, 3])
  ∧ ((store.init 0 : store Nat Nat).addList [1, 2, 3] 7).findResolve 2 = some 7
  ∧ ((store.init 0 : store Nat Nat).addList [1, 2, 3] 7).handlers.length
      = (store.init 0 : store Nat Nat).handlers.length + 1
        + ([2, 3] : List Nat).countP (fun i => decide (i ≠ 1)) := by
  refine ⟨by decide, by decide, ?_, ?_⟩
  · exact (addList_shared_callback (store.init 0) 1 [2, 3] 7 (by decide) 2
      (by decide)).1
  · exact (addList_shared_callback (store.init 0) 1 [2, 3] 7 (by decide) 2
      (by decide)).2

theorem resolveEntry_null {alpha kappa : Type}
    (hs : List (alpha × entryFunc kappa)) (fuel : Nat) :
    resolveEntry hs fuel (entryFunc.null : entryFunc kappa) = none := by
  cases fuel <;> rfl

theorem resolveEntry_fwd_succ {alpha kappa : Type}
    (hs : List (alpha × entryFunc kappa)) (n i : Nat) :
    resolveEntry hs (n + 1) (entryFunc.fwd i)
      = (match hs[i]? with
         | some q => resolveEntry hs n q.2
         | none => none) := rfl

theorem isDirectSlot_eq {kappa : Type} (e : entryFunc kappa)
    (h : isDirectSlot e = true) : ∃ c, e = entryFunc.direct c := by
  cases e with
  | direct c => exact ⟨c, rfl⟩
  | null => exact absurd h (by simp [isDirectSlot])
  | fwd i => exact absurd h (by simp [isDirectSlot])

theorem entryWFb_spec {alpha kappa : Type}
    (hs : List (alpha × entryFunc kappa)) (hwf : entryWFb hs = true) :
    ∀ x ∈ hs, ∀ i, fwdTarget x.2 = some i →
      ∃ q, hs[i]? = some q ∧ isDirectSlot q.2 = true := by
  intro x hx i hi
  have hall := List.all_eq_true.mp hwf x hx
  rw [hi] at hall
  have hall2 : (match hs[i]? with
      | some q => isDirectSlot q.2
      | none => false) = true := hall
  cases hq : hs[i]? with
  | none =>
    rw [hq] at hall2
    exact absurd hall2 (by simp)
  | some q =>
    rw [hq] at hall2
    exact ⟨q, rfl, hall2⟩

theorem wm_notify_ne_command : WM_NOTIFY ≠ WM_COMMAND := by decide

theorem exec_snd_eq (h : base_msg_handler) (mem : Nat → NMHDR)
    (msg wp lp : Nat) :
    (h.exec mem msg wp lp).2
      = (h.foundCall mem msg wp lp ⟨wp, lp⟩).map runCaught := by
  by_cases h1 : msg = WM_COMMAND
  · cases hfr : (h.cmds.find (LOWORD wp)).2 with
    | none => simp [base_msg_handler.exec, base_msg_handler.foundCall, h1, hfr]
    | some e => simp [base_msg_handler.exec, base_msg_handler.foundCall, h1, hfr]
  · by_cases h2 : msg = WM_NOTIFY
    · cases hfr : (h.nfys.find ((mem lp).idFrom, intOfUInt32 (mem lp).code)).2 with
      | none =>
        simp [base_msg_handler.exec, base_msg_handler.foundCall, h1, h2, hfr, wm_notify_ne_command]
      | some e =>
        simp [base_msg_handler.exec, base_msg_handler.foundCall, h1, h2, hfr, wm_notify_ne_command]
    · cases hfr : (h.msgs.find msg).2 with
      | none =>
        simp [base_msg_handler.exec, base_msg_handler.foundCall, h1, h2, hfr, wm_notify_ne_command]
      | some e =>
        simp [base_msg_handler.exec, base_msg_handler.foundCall, h1, h2, hfr, wm_notify_ne_command]

theorem foundCall_none_iff (h : base_msg_handler) (mem : Nat → NMHDR)
    (msg wp lp : Nat) (p : Param) :
    (h.foundCall mem msg wp lp p = none
      ↔ h.foundHandler mem msg wp lp = none) := by
  by_cases h1 : msg = WM_COMMAND
  · simp [base_msg_handler.foundCall, base_msg_handler.foundHandler, h1]
  · by_cases h2 : msg = WM_NOTIFY
    · simp [base_msg_handler.foundCall, base_msg_handler.foundHandler, h1, h2, wm_notify_ne_command]
    · simp [base_msg_handler.foundCall, base_msg_handler.foundHandler, h1, h2, wm_notify_ne_command]

theorem exec_fst_msgs (h : base_msg_handler) (mem : Nat → NMHDR)
    (msg wp lp : Nat) :
    (h.exec mem msg wp lp).1.msgs
      = if msg ≠ WM_COMMAND ∧ msg ≠ WM_NOTIFY then (h.msgs.find msg).1
        else h.msgs := by
  by_cases h1 : msg = WM_COMMAND
  · cases hfr : (h.cmds.find (LOWORD wp)).2 with
    | none => simp [base_msg_handler.exec, h1, hfr]
    | some e => simp [base_msg_handler.exec, h1, hfr]
  · by_cases h2 : msg = WM_NOTIFY
    · cases hfr : (h.nfys.find ((mem lp).idFrom, intOfUInt32 (mem lp).code)).2 with
      | none => simp [base_msg_handler.exec, h1, h2, hfr, wm_notify_ne_command]
      | some e => simp [base_msg_handler.exec, h1, h2, hfr, wm_notify_ne_command]
    · cases hfr : (h.msgs.find msg).2 with
      | none => simp [base_msg_handler.exec, h1, h2, hfr, wm_notify_ne_command]
      | some e => simp [base_msg_handler.exec, h1, h2, hfr, wm_notify_ne_command]

theorem exec_fst_cmds (h : base_msg_handler) (mem : Nat → NMHDR)
    (msg wp lp : Nat) :
    (h.exec mem msg wp lp).1.cmds
      = if msg = WM_COMMAND then (h.cmds.find (LOWORD wp)).1 else h.cmds := by
  by_cases h1 : msg = WM_COMMAND
  · cases hfr : (h.cmds.find (LOWORD wp)).2 with
    | none => simp [base_msg_handler.exec, h1, hfr]
    | some e => simp [base_msg_handler.exec, h1, hfr]
  · by_cases h2 : msg = WM_NOTIFY
    · cases hfr : (h.nfys.find ((mem lp).idFrom, intOfUInt32 (mem lp).code)).2 with
      | none => simp [base_msg_handler.exec, h1, h2, hfr, wm_notify_ne_command]
      | some e => simp [base_msg_handler.exec, h1, h2, hfr, wm_notify_ne_command]
    · cases hfr : (h.msgs.find msg).2 with
      | none => simp [base_msg_handler.exec, h1, h2, hfr, wm_notify_ne_command]
      | some e => simp [base_msg_handler.exec, h1, h2, hfr, wm_notify_ne_command]

theorem exec_fst_nfys (h : base_msg_handler) (mem : Nat → NMHDR)
    (msg wp lp : Nat) :
    (h.exec mem msg wp lp).1.nfys
      = if msg ≠ WM_COMMAND ∧ msg = WM_NOTIFY
        then (h.nfys.find ((mem lp).idFrom, intOfUInt32 (mem lp).code)).1
        else h.nfys := by
  by_cases h1 : msg = WM_COMMAND
  · cases hfr : (h.cmds.find (LOWORD wp)).2 with
    | none => simp [base_msg_handler.exec, h1, hfr]
    | some e => simp [base_msg_handler.exec, h1, hfr]
  · by_cases h2 : msg = WM_NOTIFY
    · cases hfr : (h.nfys.find ((mem lp).idFrom, intOfUInt32 (mem lp).code)).2 with
      | none => simp [base_msg_handler.exec, h1, h2, hfr, wm_notify_ne_command]
      | some e => simp [base_msg_handler.exec, h1, h2, hfr, wm_notify_ne_command]
    · cases hfr : (h.msgs.find msg).2 with
      | none => simp [base_msg_handler.exec, h1, h2, hfr, wm_notify_ne_command]
      | some e => simp [base_msg_handler.exec, h1, h2, hfr, wm_notify_ne_command]

theorem resolveEntry_one_step {alpha kappa : Type}
    (hs : List (alpha × entryFunc kappa)) (n i : Nat)
    (q2 : alpha × entryFunc kappa) (c : kappa)
    (hget : hs[i]? = some q2) (hq2 : q2.2 = entryFunc.direct c) :
    resolveEntry hs (n + 1) (entryFunc.fwd i) = some c := by
  rw [resolveEntry_fwd_succ, hget]
  show resolveEntry hs n q2.2 = some c
  rw [hq2, resolveEntry_direct]

theorem callEntry_snoc_of_mem_tail {alpha : Type}
    (h0 : alpha × entryFunc Callback) (t : List (alpha × entryFunc Callback))
    (x : alpha × entryFunc Callback) (m : alpha)
    (q : alpha × entryFunc Callback) (hq : q ∈ t)
    (hwf : entryWFb (h0 :: t) = true) (p : Param) :
    callEntry ((m, h0.2) :: (t ++ [x])) ((m, h0.2) :: (t ++ [x])).length q.2 p
      = callEntry ((m, h0.2) :: t) ((m, h0.2) :: t).length q.2 p := by
  cases hq2 : q.2 with
  | direct c => simp [callEntry, resolveEntry_direct]
  | null => simp [callEntry, resolveEntry_null]
  | fwd i =>
    have hmem : q ∈ h0 :: t := List.mem_cons_of_mem h0 hq
    obtain ⟨q2, hget, hdir⟩ := entryWFb_spec (h0 :: t) hwf q hmem i
      (by rw [hq2]; rfl)
    obtain ⟨c, hc⟩ := isDirectSlot_eq q2.2 hdir
    have hlt : i < (h0 :: t).length := by
      by_contra hge
      rw [List.getElem?_eq_none (Nat.le_of_not_lt hge)] at hget
      exact Option.noConfusion hget
    have hget1 : (((m, h0.2) :: t) : List (alpha × entryFunc Callback))[i]?
        = some (if i = 0 then (m, h0.2) else q2) := by
      cases i with
      | zero =>
        simp
      | succ j =>
        have : (h0 :: t)[j + 1]? = t[j]? := List.getElem?_cons_succ
        rw [this] at hget
        simp [hget]
    have hget2 : (((m, h0.2) :: (t ++ [x])) : List (alpha × entryFunc Callback))[i]?
        = some (if i = 0 then (m, h0.2) else q2) := by
      cases i with
      | zero => simp
      | succ j =>
        have hj : (h0 :: t)[j + 1]? = t[j]? := List.getElem?_cons_succ
        rw [hj] at hget
        have hjlt : j < t.length := by
          by_contra hge
          rw [List.getElem?_eq_none (Nat.le_of_not_lt hge)] at hget
          exact Option.noConfusion hget
        have : ((t ++ [x]) : List (alpha × entryFunc Callback))[j]? = t[j]? :=
          List.getElem?_append_left hjlt
        simp [this, hget]
    have hsnd : (if i = 0 then (m, h0.2) else q2).2 = entryFunc.direct c := by
      cases i with
      | zero =>
        have hq20 : q2 = h0 := by
          rw [List.getElem?_cons_zero] at hget
          exact (Option.some.inj hget).symm
        show ((m, h0.2) : alpha × entryFunc Callback).2 = entryFunc.direct c
        show h0.2 = entryFunc.direct c
        rw [← hq20]
        exact hc
      | succ j =>
        simp only [if_neg (Nat.succ_ne_zero j)]
        exact hc
    rw [List.length_cons, List.length_cons]
    rw [callEntry, callEntry,
      resolveEntry_one_step _ _ _ _ c hget2 hsnd,
      resolveEntry_one_step _ _ _ _ c hget1 hsnd]

theorem find_add_ne_snd {alpha : Type} [DecidableEq alpha]
    (s : store alpha Callback) (K : alpha) (cb : Callback) (m : alpha)
    (hm : m ≠ K) (hne : s.handlers ≠ []) :
    ((s.add K (entryFunc.direct cb)).find m).2.isSome = ((s.find m).2).isSome
  ∧ ∀ p : Param,
    (((s.add K (entryFunc.direct cb)).find m).2.map
       (fun e => callEntry ((s.add K (entryFunc.direct cb)).find m).1.handlers
         ((s.add K (entryFunc.direct cb)).find m).1.handlers.length e p))
    = (((s.find m).2).map
       (fun e => callEntry ((s.find m).1).handlers ((s.find m).1).handlers.length e p))
    ∨ ¬entryWFb s.handlers = true := by
  obtain ⟨h0, t, hht⟩ := List.exists_cons_of_ne_nil hne
  have hadd : (s.add K (entryFunc.direct cb))
      = (⟨h0 :: (t ++ [(K, entryFunc.direct cb)])⟩ : store alpha Callback) := by
    apply store.eq_of_handlers
    simp [store.add, hht]
  have hs1 : s = (⟨h0 :: t⟩ : store alpha Callback) :=
    store.eq_of_handlers hht
  have hrev : ((t ++ [(K, entryFunc.direct cb)]).reverse.find?
      (fun p => decide (p.1 = m)))
      = t.reverse.find? (fun p => decide (p.1 = m)) := by
    rw [List.reverse_append, List.reverse_singleton, List.singleton_append,
      List.find?_cons_of_neg]
    simp only [decide_eq_true_eq]
    exact fun hKm => hm hKm.symm
  constructor
  · rw [hadd, hs1, store.find_eq, store.find_eq]
    simp only [hrev]
  · intro p
    by_cases hwf : entryWFb s.handlers = true
    · left
      rw [hadd, hs1, store.find_eq, store.find_eq]
      simp only [hrev]
      cases hF : t.reverse.find? (fun p => decide (p.1 = m)) with
      | none => rfl
      | some q =>
        have hqt : q ∈ t := List.mem_reverse.mp (List.mem_of_find?_eq_some hF)
        simp only [Option.map_some, Option.map_map]
        rw [hht] at hwf
        have := callEntry_snoc_of_mem_tail h0 t (K, entryFunc.direct cb) m q hqt hwf p
        simp only [Option.map_some', Function.comp_apply]
        rw [this]
    · right
      exact hwf

/-- Claim C2: for every message, exec probes exactly one table chosen by
the message code — the command table keyed by LOWORD(wp) when msg is
WM_COMMAND, the notification table keyed by the (idFrom, code) pair read
from the NMHDR pointed to by lp when msg is WM_NOTIFY, otherwise the
generic message table — invokes the found callback, and returns empty
when no handler was found so the caller falls back to default OS
processing.  The two unselected tables are untouched. -/
theorem exec_probes_one_table (h : base_msg_handler) (mem : Nat → NMHDR)
    (msg wp lp : Nat) :
    ((h.exec mem msg wp lp).2
       = (h.foundCall mem msg wp lp ⟨wp, lp⟩).map runCaught)
  ∧ (((h.exec mem msg wp lp).2 = none) ↔ h.foundHandler mem msg wp lp = none)
  ∧ ((h.exec mem msg wp lp).1.msgs
       = if msg ≠ WM_COMMAND ∧ msg ≠ WM_NOTIFY then (h.msgs.find msg).1
         else h.msgs)
  ∧ ((h.exec mem msg wp lp).1.cmds
       = if msg = WM_COMMAND then (h.cmds.find (LOWORD wp)).1 else h.cmds)
  ∧ ((h.exec mem msg wp lp).1.nfys
       = if msg ≠ WM_COMMAND ∧ msg = WM_NOTIFY
         then (h.nfys.find ((mem lp).idFrom, intOfUInt32 (mem lp).code)).1
         else h.nfys) := by
  refine ⟨exec_snd_eq h mem msg wp lp, ?_, exec_fst_msgs h mem msg wp lp,
    exec_fst_cmds h mem msg wp lp, exec_fst_nfys h mem msg wp lp⟩
  rw [exec_snd_eq h mem msg wp lp, Option.map_eq_none']
  exact foundCall_none_iff h mem msg wp lp ⟨wp, lp⟩

/-- Claim C9: when exec finds a handler it returns a present result even
if the handler raises — the protected region intercepts the error and
exec yields the initial retVal 0, so the caller does not fall back to
default OS processing; exec returns empty exactly when no handler was
found; as a total function into an error-free result type, exec never
propagates an exception. -/
theorem exec_intercepts_handler_errors (h : base_msg_handler)
    (mem : Nat → NMHDR) (msg wp lp : Nat) :
    (((h.exec mem msg wp lp).2 = none) ↔ h.foundHandler mem msg wp lp = none)
  ∧ (∀ exc, h.foundCall mem msg wp lp ⟨wp, lp⟩ = some (Except.error exc) →
       (h.exec mem msg wp lp).2 = some 0)
  ∧ (∀ v, h.foundCall mem msg wp lp ⟨wp, lp⟩ = some (Except.ok v) →
       (h.exec mem msg wp lp).2 = some v) := by
  refine ⟨?_, ?_, ?_⟩
  · rw [exec_snd_eq h mem msg wp lp, Option.map_eq_none']
    exact foundCall_none_iff h mem msg wp lp ⟨wp, lp⟩
  · intro exc hfc
    rw [exec_snd_eq h mem msg wp lp, hfc]
    rfl
  · intro v hfc
    rw [exec_snd_eq h mem msg wp lp, hfc]
    rfl

/-- Witness for C9: a handler registered under message 5 that throws;
exec at message 5 returns the present result 0, not empty. -/
theorem exec_intercepts_handler_errors_witness :
    wHandler.foundCall memZero 5 1 2 ⟨1, 2⟩
        = some (Except.error cppExc.unknownExc)
  ∧ (wHandler.exec memZero 5 1 2).2 = some 0 :=
  ⟨rfl, (exec_intercepts_handler_errors wHandler memZero 5 1 2).2.1
    cppExc.unknownExc rfl⟩

/-- Claim C10: a handler registered through on_message in the generic
message table under the code WM_COMMAND or WM_NOTIFY is never invoked by
exec: for those two codes exec probes only the command respectively
notification table, and for any other code the generic lookup cannot
select an entry keyed differently, so adding such a registration changes
no exec result at all. -/
theorem generic_command_notify_entry_unreachable (h : base_msg_handler)
    (cb : Callback) (mem : Nat → NMHDR) (msg wp lp : Nat)
    (hne : h.msgs.handlers ≠ []) (hwf : entryWFb h.msgs.handlers = true) :
    ((h.on_message WM_COMMAND cb).exec mem msg wp lp).2
        = (h.exec mem msg wp lp).2
  ∧ ((h.on_message WM_NOTIFY cb).exec mem msg wp lp).2
        = (h.exec mem msg wp lp).2 := by
  have key : ∀ K, (K = WM_COMMAND ∨ K = WM_NOTIFY) →
      ((h.on_message K cb).exec mem msg wp lp).2 = (h.exec mem msg wp lp).2 := by
    intro K hK
    rw [exec_snd_eq, exec_snd_eq]
    congr 1
    by_cases h1 : msg = WM_COMMAND
    · simp [base_msg_handler.foundCall, base_msg_handler.on_message, h1]
    · by_cases h2 : msg = WM_NOTIFY
      · simp [base_msg_handler.foundCall, base_msg_handler.on_message, h1, h2]
      · have hmK : msg ≠ K := by
          cases hK with
          | inl hl => rw [hl]; exact h1
          | inr hr => rw [hr]; exact h2
        have hstab := (find_add_ne_snd h.msgs K cb msg hmK hne).2 ⟨wp, lp⟩
        cases hstab with
        | inl heq =>
          simp only [base_msg_handler.foundCall, base_msg_handler.on_message,
            if_neg h1, if_neg h2]
          exact heq
        | inr hbad => exact absurd hwf hbad
  exact ⟨key WM_COMMAND (Or.inl rfl), key WM_NOTIFY (Or.inr rfl)⟩

/-- Witness for C10: on the concrete handler, registering a generic
entry under WM_COMMAND changes no dispatch result at message 5. -/
theorem generic_command_notify_entry_unreachable_witness :
    (wHandler.msgs.handlers ≠ [])
  ∧ entryWFb wHandler.msgs.handlers = true
  ∧ ((wHandler.on_message WM_COMMAND errorCallback).exec memZero 5 1 2).2
      = (wHandler.exec memZero 5 1 2).2 := by
  refine ⟨?_, rfl, ?_⟩
  · intro hcon
    simp [wHandler, store.init, store.add] at hcon
  · exact (generic_command_notify_entry_unreachable wHandler errorCallback
      memZero 5 1 2 (by intro hcon; simp [wHandler, store.init, store.add] at hcon)
      rfl).1

theorem window_proc_no_owner (w : winWorld) (csMem : Nat → Nat)
    (mem : Nat → NMHDR) (hWnd msg wp lp : Nat)
    (h0 : w.userData hWnd = 0) (hmsg : msg ≠ WM_NCCREATE) :
    window_proc w csMem mem hWnd msg wp lp = (w, procResult.defaultProc) := by
  simp [window_proc, if_neg hmsg, h0]

theorem dialog_proc_no_owner (w : winWorld) (mem : Nat → NMHDR)
    (hWnd msg wp lp : Nat) (h0 : w.userData hWnd = 0)
    (hmsg : msg ≠ WM_INITDIALOG) :
    dialog_proc w mem hWnd msg wp lp = (w, 0) := by
  simp [dialog_proc, if_neg hmsg, h0]

theorem run_window_msgs_no_owner (csMem : Nat → Nat) (mem : Nat → NMHDR)
    (hWnd : Nat) (w : winWorld) (h0 : w.userData hWnd = 0)
    (ms : List (Nat × Nat × Nat)) (hms : ∀ m ∈ ms, m.1 ≠ WM_NCCREATE) :
    run_window_msgs csMem mem hWnd w ms = w := by
  induction ms with
  | nil => rfl
  | cons m ms ih =>
    show run_window_msgs csMem mem hWnd
      (window_proc w csMem mem hWnd m.1 m.2.1 m.2.2).1 ms = w
    rw [window_proc_no_owner w csMem mem hWnd m.1 m.2.1 m.2.2 h0
      (hms m (List.mem_cons_self m ms))]
    exact ih (fun m2 hm2 => hms m2 (List.mem_cons_of_mem m hm2))

theorem wm_ncdestroy_ne_nccreate : WM_NCDESTROY ≠ WM_NCCREATE := by decide

theorem wm_ncdestroy_ne_initdialog : WM_NCDESTROY ≠ WM_INITDIALOG := by decide

/-- Claim C3: processing WM_NCDESTROY for an owned handle clears the
per-handle owner slot and zeroes the instance handle, strictly after the
final dispatch of that message (the returned result and the recorded
handler state come from an exec performed on the still-live instance);
every later message for that handle (the OS sends WM_NCCREATE and
WM_INITDIALOG only once per handle) finds no owner, leaves the world
unchanged and takes the default-processing path, for the window
procedure and the dialog procedure alike, so the lifecycle cannot move
back out of DESTROYED. -/
theorem teardown_clears_owner_association
    (w : winWorld) (csMem : Nat → Nat) (mem : Nat → NMHDR)
    (hWnd wp lp p : Nat) (hp : w.userData hWnd = p) (hp0 : p ≠ 0) :
    ((window_proc w csMem mem hWnd WM_NCDESTROY wp lp).1.userData hWnd = 0)
  ∧ ((window_proc w csMem mem hWnd WM_NCDESTROY wp lp).1.instances p
       = { hWnd := 0,
           msgHandler :=
             ((w.instances p).msgHandler.exec mem WM_NCDESTROY wp lp).1 })
  ∧ ((window_proc w csMem mem hWnd WM_NCDESTROY wp lp).2
       = match ((w.instances p).msgHandler.exec mem WM_NCDESTROY wp lp).2 with
         | some v => procResult.handled v
         | none => procResult.defaultProc)
  ∧ (∀ w2 : winWorld, w2.userData hWnd = 0 → ∀ msg2 wp2 lp2 : Nat,
       msg2 ≠ WM_NCCREATE →
       window_proc w2 csMem mem hWnd msg2 wp2 lp2 = (w2, procResult.defaultProc))
  ∧ (∀ ms : List (Nat × Nat × Nat), (∀ m ∈ ms, m.1 ≠ WM_NCCREATE) →
       run_window_msgs csMem mem hWnd
         (window_proc w csMem mem hWnd WM_NCDESTROY wp lp).1 ms
       = (window_proc w csMem mem hWnd WM_NCDESTROY wp lp).1)
  ∧ ((dialog_proc w mem hWnd WM_NCDESTROY wp lp).1.userData hWnd = 0)
  ∧ ((dialog_proc w mem hWnd WM_NCDESTROY wp lp).1.instances p
       = { hWnd := 0,
           msgHandler :=
             ((w.instances p).msgHandler.exec mem WM_NCDESTROY wp lp).1 })
  ∧ ((dialog_proc w mem hWnd WM_NCDESTROY wp lp).2
       = (((w.instances p).msgHandler.exec mem WM_NCDESTROY wp lp).2).getD 0)
  ∧ (∀ w2 : winWorld, w2.userData hWnd = 0 → ∀ msg2 wp2 lp2 : Nat,
       msg2 ≠ WM_INITDIALOG →
       dialog_proc w2 mem hWnd msg2 wp2 lp2 = (w2, 0)) := by
  have hwp1 : (window_proc w csMem mem hWnd WM_NCDESTROY wp lp).1.userData hWnd
      = 0 := by
    simp [window_proc, if_neg wm_ncdestroy_ne_nccreate, hp, hp0,
      setUserData, setInstance]
  have hdp1 : (dialog_proc w mem hWnd WM_NCDESTROY wp lp).1.userData hWnd
      = 0 := by
    simp [dialog_proc, if_neg wm_ncdestroy_ne_initdialog, hp, hp0,
      setUserData, setInstance]
  refine ⟨hwp1, ?_, ?_, ?_, ?_, hdp1, ?_, ?_, ?_⟩
  · simp [window_proc, if_neg wm_ncdestroy_ne_nccreate, hp, hp0,
      setUserData, setInstance]
  · simp [window_proc, if_neg wm_ncdestroy_ne_nccreate, hp, hp0,
      setUserData, setInstance]
  · intro w2 h0 msg2 wp2 lp2 hmsg2
    exact window_proc_no_owner w2 csMem mem hWnd msg2 wp2 lp2 h0 hmsg2
  · intro ms hms
    exact run_window_msgs_no_owner csMem mem hWnd _ hwp1 ms hms
  · simp [dialog_proc, if_neg wm_ncdestroy_ne_initdialog, hp, hp0,
      setUserData, setInstance]
  · simp [dialog_proc, if_neg wm_ncdestroy_ne_initdialog, hp, hp0,
      setUserData, setInstance]
  · intro w2 h0 msg2 wp2 lp2 hmsg2
    exact dialog_proc_no_owner w2 mem hWnd msg2 wp2 lp2 h0 hmsg2

/-- Witness for C3: on the concrete world, after WM_NCDESTROY for
handle 7 the owner slot reads 0 and re-sending an ordinary message
leaves the world untouched on the default path. -/
theorem teardown_clears_owner_association_witness :
    (wWorldC.userData 7 = 1) ∧ ((1 : Nat) ≠ 0)
  ∧ ((window_proc wWorldC (fun _ => 0) memZero 7 WM_NCDESTROY 0 0).1.userData 7
       = 0) :=
  ⟨rfl, by decide,
   (teardown_clears_owner_association wWorldC (fun _ => 0) memZero 7 0 0 1
     rfl (by decide)).1⟩

/-- Claim C4: a LIVE instance (handle assigned) rejects a second create
call with a logic-fault error, and rejects every handler registration
(on_message, on_command, on_notify) with a logic-fault error, for
base_window and base_dialog alike; the rejected call produces no new
state, so the instance is unchanged. -/
theorem live_instance_rejects_create_and_registration
    (s : base_window_st) (hlive : s.hWnd ≠ 0) (os : Except Nat Nat)
    (m c idf : Nat) (code : Int) (cb : Callback) (did : Nat) :
    create_window s os
        = Except.error (cppExc.logicError "Cannot create a window twice.")
  ∧ base_window_on_message s m cb
        = Except.error (cppExc.logicError
            "Cannot add a message handler after the window was created.")
  ∧ base_window_on_command s c cb
        = Except.error (cppExc.logicError
            "Cannot add a command handler after the window was created.")
  ∧ base_window_on_notify s idf code cb
        = Except.error (cppExc.logicError
            "Cannot add a notify handler after the window was created.")
  ∧ dlg_creation_checks s did
        = Except.error (cppExc.logicError "Cannot create a dialog twice.")
  ∧ dlg_on_message s m cb
        = Except.error (cppExc.logicError
            "Cannot add a message handler after the dialog was created.")
  ∧ dlg_on_command s c cb
        = Except.error (cppExc.logicError
            "Cannot add a command handler after the dialog was created.")
  ∧ dlg_on_notify s idf code cb
        = Except.error (cppExc.logicError
            "Cannot add a notify handler after the dialog was created.") := by
  refine ⟨?_, ?_, ?_, ?_, ?_, ?_, ?_, ?_⟩ <;>
    simp [create_window, base_window_on_message, base_window_on_command,
      base_window_on_notify, dlg_creation_checks, dlg_on_message,
      dlg_on_command, dlg_on_notify, hlive]

/-- Witness for C4: the concrete live instance with handle 5 rejects a
second create call. -/
theorem live_instance_rejects_witness :
    (liveWindowC.hWnd ≠ 0)
  ∧ create_window liveWindowC (Except.ok 9)
      = Except.error (cppExc.logicError "Cannot create a window twice.") :=
  ⟨by decide,
   (live_instance_rejects_create_and_registration liveWindowC (by decide)
     (Except.ok 9) 0 0 0 0 errorCallback 0).1⟩

/-- Claim C8: register_class is idempotent for an already-registered
class — ERROR_CLASS_ALREADY_EXISTS fetches and reuses the existing class
atom with no error — while any other OS failure raises a system error
carrying the platform error code. -/
theorem register_class_idempotent (atomOS existing lerr : Nat)
    (h1 : lerr ≠ ERROR_SUCCESS) (h2 : lerr ≠ ERROR_CLASS_ALREADY_EXISTS) :
    register_class atomOS ERROR_CLASS_ALREADY_EXISTS existing
        = Except.ok existing
  ∧ register_class atomOS ERROR_SUCCESS existing = Except.ok atomOS
  ∧ register_class atomOS lerr existing
        = Except.error (cppExc.systemError lerr "RegisterClassEx failed.") := by
  refine ⟨rfl, rfl, ?_⟩
  simp [register_class, h1, h2]

/-- Witness for C8: error code 5 (access denied) is neither success nor
the already-exists report, and raises a system error carrying 5. -/
theorem register_class_idempotent_witness :
    ((5 : Nat) ≠ ERROR_SUCCESS) ∧ ((5 : Nat) ≠ ERROR_CLASS_ALREADY_EXISTS)
  ∧ register_class 1 5 2
      = Except.error (cppExc.systemError 5 "RegisterClassEx failed.") :=
  ⟨by decide, by decide,
   (register_class_idempotent 1 2 5 (by decide) (by decide)).2.2⟩

/-- Claim C7: at assign or create time the subclass procedure is
installed exactly when at least one subclass handler was registered
beforehand; and the subclass procedure removes its own subclass exactly
on observing WM_NCDESTROY, unconditionally — for every instance state,
including a null instance or one with no handler fired. -/
theorem subclass_lazy_install_unconditional_removal
    (s : base_native_control_st) (hfresh : s.hWnd = 0) (osItem nid hw : Nat)
    (ctrl : Option base_native_control_st) (msg wp lp : Nat) :
    (bnc_assign s true osItem nid
       = Except.ok
           ({ s with
                hWnd := osItem,
                subclassId := if !s.msgs.empty then nid else s.subclassId },
            !s.msgs.empty))
  ∧ (bnc_create_window s true (Except.ok hw) nid
       = Except.ok
           ({ s with
                hWnd := hw,
                subclassId := if !s.msgs.empty then nid else s.subclassId },
            !s.msgs.empty))
  ∧ ((subclass_proc ctrl msg wp lp).2.1 = decide (msg = WM_NCDESTROY)) := by
  refine ⟨?_, ?_, rfl⟩ <;>
    · by_cases hemp : s.msgs.empty <;>
        simp [bnc_assign, bnc_create_window, install_subclass_if_needed,
          hfresh, hemp]

/-- Witness for C7: the fresh control with one registered handler gets
the subclass installed at assign time, and the subclass procedure
reports removal exactly for WM_NCDESTROY even with a null instance. -/
theorem subclass_lazy_install_witness :
    (freshControlC.hWnd = 0)
  ∧ (bnc_assign freshControlC true 7 1
       = Except.ok
           ({ freshControlC with
                hWnd := 7,
                subclassId := if !freshControlC.msgs.empty then 1
                  else freshControlC.subclassId },
            !freshControlC.msgs.empty))
  ∧ ((subclass_proc none WM_NCDESTROY 0 0).2.1 = decide (130 = WM_NCDESTROY)) :=
  ⟨rfl,
   (subclass_lazy_install_unconditional_removal freshControlC rfl 7 1 0 none
     WM_NCDESTROY 0 0).1,
   (subclass_lazy_install_unconditional_removal freshControlC rfl 7 1 0 none
     WM_NCDESTROY 0 0).2.2⟩
